import Mathlib

/-!
Shallow embedding of the edx-downloader extraction and download core
(`edx_downloader/video_extractor.py`, `edx_downloader/download_manager.py`,
`edx_downloader/app.py`, `edx_downloader/models.py`) together with proofs
about the behaviour its specification describes.

All string operations are structural recursions over `List Char` so that
every concrete instance evaluates by kernel reduction.
-/

namespace Edx

/-! ### String helpers (models of the Python stdlib operations the source uses) -/

/-- Model of `pat` being a prefix of a character list. -/
def prefixOfCs : List Char → List Char → Bool
  | [], _ => true
  | _ :: _, [] => false
  | p :: ps, c :: cs => p == c && prefixOfCs ps cs

/-- Model of Python's `pat in s` substring test. -/
def containsCs : List Char → List Char → Bool
  | [], pat => pat.isEmpty
  | c :: cs, pat => prefixOfCs pat (c :: cs) || containsCs cs pat

/-- `pat in s` on strings. -/
def strContains (s pat : String) : Bool := containsCs s.toList pat.toList

/-- `s.startswith(pat)`. -/
def startsWithCs (s pat : String) : Bool := prefixOfCs pat.toList s.toList

/-- `s.endswith(pat)`. -/
def endsWithCs (s pat : String) : Bool := prefixOfCs pat.toList.reverse s.toList.reverse

/-- `s.lower()` (ASCII case folding, which is all the source relies on). -/
def lowerCs (s : String) : String := String.mk (s.toList.map Char.toLower)

/-- Characters allowed in a URL scheme after the leading letter
(`urllib.parse` accepts letters, digits, `+`, `-` and `.`). -/
def isSchemeChar (c : Char) : Bool := c.isAlpha || c.isDigit || c == '+' || c == '-' || c == '.'

/-- Split a character list at its first colon: `some (before, after)`. -/
def splitAtColon : List Char → Option (List Char × List Char)
  | [] => none
  | c :: cs =>
    if c == ':' then some ([], cs)
    else
      match splitAtColon cs with
      | some (b, a) => some (c :: b, a)
      | none => none

/-- Model of `urllib.parse.urlparse`'s scheme recognition: the part before the
first colon is a scheme iff it is nonempty, starts with a letter and consists
of scheme characters; the scheme is lowercased.  Returns `(scheme, rest)`. -/
def schemeSplit (url : String) : String × String :=
  match splitAtColon url.toList with
  | some (b, a) =>
    (match b with
     | [] => ("", url)
     | c :: _ =>
       if c.isAlpha && b.all isSchemeChar then (String.mk (b.map Char.toLower), String.mk a)
       else ("", url))
  | none => ("", url)

/-- `urlparse(url).scheme`. -/
def urlScheme (url : String) : String := (schemeSplit url).1

/-- `urlparse(url).netloc`: present only after a `//` following the scheme. -/
def urlNetloc (url : String) : String :=
  let r := (schemeSplit url).2.toList
  if prefixOfCs ['/', '/'] r then
    String.mk ((r.drop 2).takeWhile (fun c => !(c == '/' || c == '?' || c == '#')))
  else ""

/-- `urlparse(url).path`: what remains after scheme and netloc, with query and
fragment stripped. -/
def urlPath (url : String) : String :=
  let r := (schemeSplit url).2.toList
  let rest :=
    if prefixOfCs ['/', '/'] r then (r.drop 2).dropWhile (fun c => !(c == '/' || c == '?' || c == '#'))
    else r
  String.mk (rest.takeWhile (fun c => !(c == '?' || c == '#')))

/-- Model of `s.split(sep)[-1]`: the characters after the last occurrence of
`sep` (the separators used by the source never self-overlap). -/
def afterLastSeqAux (sep : List Char) : List Char → Option (List Char)
  | [] => none
  | c :: cs =>
    match afterLastSeqAux sep cs with
    | some r => some r
    | none => if prefixOfCs sep (c :: cs) then some (List.drop sep.length (c :: cs)) else none

/-- `s.split(sep)[-1]` for non-self-overlapping separators. -/
def afterLastSeq (sep : List Char) (l : List Char) : List Char :=
  (afterLastSeqAux sep l).getD l

/-- `s.split(sep)[0]`: the characters before the first occurrence of `sep`. -/
def beforeFirstSeq (sep : List Char) : List Char → List Char
  | [] => []
  | c :: cs => if prefixOfCs sep (c :: cs) then [] else c :: beforeFirstSeq sep cs

/-- `s.split('/')[-1]` (segment after the last slash). -/
def lastSlashSegment (l : List Char) : List Char :=
  l.foldl (fun acc c => if c == '/' then [] else acc ++ [c]) []

/-- Python truthiness chain `a or b` over optional strings: an absent value and
the empty string are both falsy. -/
def firstTruthy (l : List (Option String)) : Option String :=
  l.findSome? fun o =>
    match o with
    | some s => if s == "" then none else some s
    | none => none

/-! ### Quality / format classifier (`video_extractor.py`) -/

/-- `VideoExtractor.QUALITY_PATTERNS`, with each regex compiled to the
substring test it denotes (`r'2160p?'` matches exactly when the text contains
`"2160"`, and so on). -/
def QUALITY_PATTERNS : List (String × List String) :=
  [("2160p", ["2160", "4k", "uhd"]),
   ("1440p", ["1440", "2k"]),
   ("1080p", ["1080", "fullhd", "fhd"]),
   ("720p", ["720", "hd"]),
   ("480p", ["480", "sd"]),
   ("360p", ["360"]),
   ("240p", ["240"]),
   ("144p", ["144"])]

/-- `VideoExtractor._determine_video_quality`.  The optional `height` is the
already-parsed integer `height` attribute of the element argument. -/
def determineVideoQuality (url : String) (height : Option Int) : String :=
  let urlLower := lowerCs url
  match QUALITY_PATTERNS.findSome?
      (fun qp => if qp.2.any (fun pat => strContains urlLower pat) then some qp.1 else none) with
  | some q => q
  | none =>
    match height with
    | some h =>
      if h ≥ 2160 then "2160p"
      else if h ≥ 1440 then "1440p"
      else if h ≥ 1080 then "1080p"
      else if h ≥ 720 then "720p"
      else if h ≥ 480 then "480p"
      else if h ≥ 360 then "360p"
      else if h ≥ 240 then "240p"
      else "144p"
    | none => "unknown"

/-- `VideoExtractor._get_video_format`. -/
def getVideoFormat (url : String) : String :=
  let path := urlPath (lowerCs url)
  if endsWithCs path ".mp4" then "mp4"
  else if endsWithCs path ".webm" then "webm"
  else if endsWithCs path ".m4v" then "m4v"
  else if endsWithCs path ".mov" then "mov"
  else if endsWithCs path ".avi" then "avi"
  else if endsWithCs path ".mkv" then "mkv"
  else if endsWithCs path ".flv" then "flv"
  else if endsWithCs path ".m3u8" then "hls"
  else if endsWithCs path ".mpd" then "dash"
  else if strContains url "youtube.com" || strContains url "youtu.be" then "youtube"
  else if strContains url "vimeo.com" then "vimeo"
  else "unknown"

/-- `VideoExtractor.VIDEO_EXTENSIONS`. -/
def VIDEO_EXTENSIONS : List String := [".mp4", ".webm", ".m4v", ".mov", ".avi", ".mkv", ".flv"]

/-- `VideoExtractor.STREAMING_FORMATS`. -/
def STREAMING_FORMATS : List String := [".m3u8", ".mpd", ".f4m"]

/-- The fixed list of video-hosting domains in `VideoExtractor._is_video_url`. -/
def videoDomains : List String :=
  ["youtube.com", "youtu.be", "vimeo.com", "wistia.com", "brightcove.com", "kaltura.com"]

/-- `VideoExtractor._is_video_url`. -/
def isVideoUrl (url : String) : Bool :=
  if url == "" then false
  else
    let urlLower := lowerCs url
    let path := urlPath urlLower
    (VIDEO_EXTENSIONS ++ STREAMING_FORMATS).any (fun ext => endsWithCs path ext)
      || videoDomains.any (fun d => strContains urlLower d)

/-! ### VideoInfo (`models.py`) -/

/-- The `VideoInfo` dataclass of `models.py`.  Sizes and durations are
Python ints, hence `Int` here; `validate` rejects the negative ones. -/
structure VideoInfo where
  id : String
  title : String
  url : String
  quality : String
  size : Option Int := none
  duration : Option Int := none
  courseSection : String := ""
  format : String := "mp4"
deriving DecidableEq, Repr

/-- The `valid_qualities` list of `VideoInfo.validate`. -/
def validQualities : List String :=
  ["highest", "high", "medium", "low",
   "2160p", "1440p", "1080p", "720p", "480p", "360p", "240p", "144p",
   "youtube", "vimeo", "unknown"]

/-- A URL is absolute and scheme-qualified when it carries both a scheme and a
network location. -/
def isAbsoluteUrl (u : String) : Prop := urlScheme u ≠ "" ∧ urlNetloc u ≠ ""

instance (u : String) : Decidable (isAbsoluteUrl u) := by
  unfold isAbsoluteUrl; infer_instance

/-- `VideoInfo.validate` as a boolean: the construction succeeds exactly when
every check passes (a failing check raises `ValueError`). -/
def validateVideoInfo (v : VideoInfo) : Bool :=
  !(v.id == "") && !(v.title == "") && !(v.url == "")
    && !(urlScheme v.url == "") && !(urlNetloc v.url == "")
    && validQualities.contains v.quality
    && (match v.size with | none => true | some n => decide (0 ≤ n))
    && (match v.duration with | none => true | some n => decide (0 ≤ n))

/-- Constructing a `VideoInfo` inside the extractor's `try`/`except` blocks:
`__post_init__` runs `validate`, and a `ValueError` makes the surrounding
strategy helper return `None`. -/
def mkVideoInfo (id title url quality : String) (size duration : Option Int)
    (sectionName fmt : String) : Option VideoInfo :=
  let v : VideoInfo :=
    { id := id, title := title, url := url, quality := quality,
      size := size, duration := duration, courseSection := sectionName, format := fmt }
  if validateVideoInfo v then some v else none

/-! ### Record constructors of `VideoExtractor` -/

/-- Deterministic stand-in for Python's process-randomized `hash(url) % 10000`;
the source uses it only to build an opaque id string. -/
def pyHashMod (s : String) : Nat :=
  (s.toList.foldl (fun a c => a * 31 + c.toNat) 7) % 10000

/-- `VideoExtractor._create_video_from_url`.  `urljoin` abstracts
`urllib.parse.urljoin`, applied exactly where the source applies it. -/
def createVideoFromUrl (urljoin : String → String → String) (baseUrl url0 title0 : String) :
    Option VideoInfo :=
  if !isVideoUrl url0 then none
  else
    let url := if !startsWithCs url0 "http" then urljoin baseUrl url0 else url0
    let title :=
      if title0 == "" then
        let filename := lastSlashSegment (urlPath url).toList
        if containsCs filename ['.'] then String.mk (filename.takeWhile (fun c => !(c == '.')))
        else "Video"
      else title0
    let quality := determineVideoQuality url none
    mkVideoInfo ("url-" ++ toString (pyHashMod url)) title url quality
      (some 0) (some 0) "" (getVideoFormat url)

/-- The quality preference list of `_parse_video_json` / `_parse_encoded_videos`. -/
def qualityPreference : List String := ["1080p", "720p", "480p", "360p", "240p"]

/-- Python `dict` lookup on an association list (dict keys are unique, so the
first match is the match). -/
def lookupKey (l : List (String × String)) (k : String) : Option String :=
  (l.find? (fun p => p.1 == k)).map Prod.snd

/-- Python truthiness of the `video_url` variable (`None` and `""` are falsy). -/
def urlFalsy : Option String → Bool
  | none => true
  | some s => s == ""

/-- The quality-selection block shared by `_parse_encoded_videos` and the
`encoded_videos` branch of `_parse_video_json`: scan the preference order,
then fall back to the first entry when nothing truthy was selected.
Returns the final `(quality, video_url)` pair of local variables. -/
def selectEncoded (encoded : List (String × String)) : String × Option String :=
  let st :=
    match qualityPreference.findSome? (fun q => (lookupKey encoded q).map (fun u => (q, u))) with
    | some (q, u) => (q, some u)
    | none => ("unknown", (none : Option String))
  if urlFalsy st.2 && !encoded.isEmpty then
    match encoded with
    | [] => st
    | (q, u) :: _ => (q, some u)
  else st

/-- The fields of the `data` dictionary that `_parse_encoded_videos` reads.
`duration` stands for the integer `_parse_duration` returns for the raw
attribute (0 when absent). -/
structure EncodedVideosData where
  encodedVideos : List (String × String)
  displayName : Option String := none
  name : Option String := none
  duration : Int := 0
  id : Option String := none

/-- `VideoExtractor._parse_encoded_videos`. -/
def parseEncodedVideos (urljoin : String → String → String) (baseUrl : String)
    (d : EncodedVideosData) : Option VideoInfo :=
  if d.encodedVideos.isEmpty then none
  else
    let sel := selectEncoded d.encodedVideos
    if urlFalsy sel.2 then none
    else
      match sel.2 with
      | none => none
      | some u =>
        let url := if !startsWithCs u "http" then urljoin baseUrl u else u
        let title := (d.displayName.getD (d.name.getD "Video"))
        mkVideoInfo (d.id.getD "encoded-video") title url sel.1
          (some 0) (some d.duration) "" (getVideoFormat url)

/-- The fields of the `video_data` dictionary that `_parse_video_json` reads.
`encodedVideos = none` models the `'encoded_videos' in video_data` test
failing; likewise for `videoUrl`. -/
structure VideoJsonData where
  id : Option String := none
  videoId : Option String := none
  displayName : Option String := none
  name : Option String := none
  encodedVideos : Option (List (String × String)) := none
  videoUrl : Option String := none
  duration : Int := 0
  fileSize : Int := 0

/-- `VideoExtractor._parse_video_json`. -/
def parseVideoJson (urljoin : String → String → String) (baseUrl : String)
    (d : VideoJsonData) : Option VideoInfo :=
  let videoId := d.id.getD (d.videoId.getD "unknown")
  let title := d.displayName.getD (d.name.getD ("Video " ++ videoId))
  let sel : String × Option String :=
    match d.encodedVideos with
    | some encoded =>
      let st :=
        match qualityPreference.findSome? (fun q => (lookupKey encoded q).map (fun u => (q, u))) with
        | some (q, u) => (q, some u)
        | none => ("unknown", (none : Option String))
      if urlFalsy st.2 && !encoded.isEmpty then
        match encoded with
        | [] => st
        | (q, u) :: _ => (q, some u)
      else st
    | none =>
      match d.videoUrl with
      | some u => (determineVideoQuality u none, some u)
      | none => ("unknown", none)
  if urlFalsy sel.2 then none
  else
    match sel.2 with
    | none => none
    | some u =>
      let url := if !startsWithCs u "http" then urljoin baseUrl u else u
      mkVideoInfo videoId title url sel.1 (some d.fileSize) (some d.duration) ""
        (getVideoFormat url)

/-- The attributes of an HTML5 `<video>` element that
`_parse_video_element` reads.  `sourceSrc` is the `src` of a nested
`<source>` child; `durationAttr` and `height` stand for the parsed integer
values of the corresponding attributes (`none` when absent or unparsable). -/
structure VideoElement where
  sourceSrc : Option String := none
  src : Option String := none
  title : Option String := none
  dataTitle : Option String := none
  durationAttr : Option Int := none
  height : Option Int := none

/-- `VideoExtractor._parse_video_element`. -/
def parseVideoElement (urljoin : String → String → String) (baseUrl : String)
    (e : VideoElement) (index : Nat) : Option VideoInfo :=
  match firstTruthy [e.sourceSrc, e.src] with
  | none => none
  | some u =>
    let url := if !startsWithCs u "http" then urljoin baseUrl u else u
    let title := (firstTruthy [e.title, e.dataTitle]).getD ("Video " ++ toString (index + 1))
    let duration := e.durationAttr.getD 0
    let quality := determineVideoQuality url e.height
    mkVideoInfo ("video-" ++ toString index) title url quality (some 0) (some duration) ""
      (getVideoFormat url)

/-- The attributes of a player container that `_parse_player_element` reads. -/
structure PlayerElement where
  dataVideoUrl : Option String := none
  dataSrc : Option String := none
  src : Option String := none
  dataTitle : Option String := none
  title : Option String := none
  text : String := ""
  dataDuration : Option Int := none
  height : Option Int := none
  nestedVideo : Option VideoElement := none

/-- `VideoExtractor._parse_player_element`. -/
def parsePlayerElement (urljoin : String → String → String) (baseUrl : String)
    (e : PlayerElement) (index : Nat) : Option VideoInfo :=
  match firstTruthy [e.dataVideoUrl, e.dataSrc, e.src] with
  | none =>
    match e.nestedVideo with
    | some ve => parseVideoElement urljoin baseUrl ve index
    | none => none
  | some u =>
    let url := if !startsWithCs u "http" then urljoin baseUrl u else u
    let title :=
      (firstTruthy [e.dataTitle, e.title, some e.text]).getD ("Video " ++ toString (index + 1))
    let quality := determineVideoQuality url e.height
    let duration := e.dataDuration.getD 0
    mkVideoInfo ("player-" ++ toString index) title url quality (some 0) (some duration) ""
      (getVideoFormat url)

/-- An `iframe` element as read by the embed parsers: `src` via
`iframe.get('src', '')`, `title` the raw attribute (absent ⇒ default used). -/
structure IframeElement where
  src : String := ""
  title : Option String := none

/-- `VideoExtractor._parse_youtube_embed`. -/
def parseYoutubeEmbed (ifr : IframeElement) : Option VideoInfo :=
  if ifr.src == "" then none
  else
    let vid : Option String :=
      if strContains ifr.src "youtube.com/embed/" then
        some (String.mk ((afterLastSeq "/embed/".toList ifr.src.toList).takeWhile (fun c => !(c == '?'))))
      else if strContains ifr.src "youtu.be/" then
        some (String.mk ((afterLastSeq "youtu.be/".toList ifr.src.toList).takeWhile (fun c => !(c == '?'))))
      else none
    match vid with
    | none => none
    | some v =>
      if v == "" then none
      else
        let title := ifr.title.getD ("YouTube Video " ++ v)
        mkVideoInfo ("youtube-" ++ v) title ("https://www.youtube.com/watch?v=" ++ v)
          "youtube" (some 0) (some 0) "" "youtube"

/-- `VideoExtractor._parse_vimeo_embed`. -/
def parseVimeoEmbed (ifr : IframeElement) : Option VideoInfo :=
  if ifr.src == "" then none
  else
    let vid : Option String :=
      if strContains ifr.src "vimeo.com/video/" then
        some (String.mk ((afterLastSeq "/video/".toList ifr.src.toList).takeWhile (fun c => !(c == '?'))))
      else none
    match vid with
    | none => none
    | some v =>
      if v == "" then none
      else
        let title := ifr.title.getD ("Vimeo Video " ++ v)
        mkVideoInfo ("vimeo-" ++ v) title ("https://vimeo.com/" ++ v)
          "vimeo" (some 0) (some 0) "" "vimeo"

/-! ### Multi-strategy cascade (`VideoExtractor.extract_videos_from_block`) -/

/-- The four strategy methods, in the order of the `strategies` list. -/
inductive StrategyName
  | apiData        -- `_extract_from_api_data`
  | htmlParsing    -- `_extract_from_html_parsing`
  | javascript     -- `_extract_from_javascript`
  | videoElements  -- `_extract_from_video_elements`
deriving DecidableEq, Repr

/-- The fixed `strategies` list of `extract_videos_from_block` (lines 65-70). -/
def strategyOrder : List StrategyName :=
  [.apiData, .htmlParsing, .javascript, .videoElements]

/-- What one strategy invocation does for the block at hand: raise an
exception, or return a (possibly empty) list of records. -/
inductive StratOutcome
  | raises (msg : String)
  | yields (videos : List VideoInfo)
deriving DecidableEq

/-- A strategy "yields nothing": it raises, or returns an empty list. -/
def stratYieldsNothing : StratOutcome → Prop
  | .raises _ => True
  | .yields vs => vs = []

instance (o : StratOutcome) : Decidable (stratYieldsNothing o) := by
  cases o <;> (unfold stratYieldsNothing; infer_instance)

/-- The `for strategy in strategies` loop of `extract_videos_from_block`:
a raising strategy is logged and skipped, the first non-empty result is
returned, and exhaustion raises `VideoNotFoundError`.  The second component
records which strategies were invoked, in order. -/
def runStrategies (outcomes : StrategyName → StratOutcome) :
    List StrategyName → Except String (List VideoInfo) × List StrategyName
  | [] => (.error "VideoNotFoundError", [])
  | s :: rest =>
    match outcomes s with
    | .raises _ =>
      let r := runStrategies outcomes rest
      (r.1, s :: r.2)
    | .yields vs =>
      if vs.isEmpty then
        let r := runStrategies outcomes rest
        (r.1, s :: r.2)
      else (.ok vs, [s])

/-- `VideoExtractor.extract_videos_from_block`, as a function of what each
strategy does on the given block. -/
def extractVideosFromBlock (outcomes : StrategyName → StratOutcome) :
    Except String (List VideoInfo) × List StrategyName :=
  runStrategies outcomes strategyOrder

/-! ### Outline walker (`EdxDownloaderApp._extract_all_videos`) -/

/-- One entry of the outline's `blocks` map, together with the outcome of the
`extract_video_info` call the walker would make on it. -/
structure Block where
  blockType : String := ""
  studentViewUrl : String := ""
  displayName : String := "Unknown Section"
  extractResult : Except String (List VideoInfo) := .ok []

/-- The videos one block contributes to `all_videos`: only blocks of type
`video`/`sequential`/`vertical` with a nonempty `student_view_url` are
visited, and an extraction failure is caught, logged and skipped. -/
def blockVideos (b : Block) : List VideoInfo :=
  if ["video", "sequential", "vertical"].contains b.blockType && !(b.studentViewUrl == "") then
    match b.extractResult with
    | .ok vs => vs
    | .error _ => []
  else []

/-- The `seen_urls` deduplication loop at the end of `_extract_all_videos`:
keep a video iff its URL has not been seen, recording seen URLs. -/
def dedupAux : List VideoInfo → List String → List VideoInfo
  | [], _ => []
  | v :: rest, seen =>
    if seen.contains v.url then dedupAux rest seen
    else v :: dedupAux rest (v.url :: seen)

/-- Deduplicate by URL, first occurrence wins, order preserved. -/
def dedupByUrl (videos : List VideoInfo) : List VideoInfo := dedupAux videos []

/-- `EdxDownloaderApp._extract_all_videos`: accumulate over the outline's
blocks, then deduplicate by URL. -/
def extractAllVideos (blocks : List Block) : List VideoInfo :=
  dedupByUrl (blocks.map blockVideos).flatten

/-! ### Retry logic (`DownloadManager.download_video_with_retry`) -/

/-- The `RetryConfig` dataclass.  Delays are modelled as rationals. -/
structure RetryConfig where
  maxRetries : Nat := 3
  baseDelay : ℚ := 1
  maxDelay : ℚ := 60
  backoffFactor : ℚ := 2

/-- `RetryConfig.get_delay`. -/
def RetryConfig.getDelay (c : RetryConfig) (attempt : Nat) : ℚ :=
  min (c.baseDelay * c.backoffFactor ^ attempt) c.maxDelay

/-- What one `download_video` call inside the retry loop does:
complete, return a failed progress carrying `err`, or raise `err`. -/
inductive AttemptOutcome
  | completes
  | failsWith (err : String)
  | raisesExc (err : String)
deriving DecidableEq

/-- The observable result of `download_video_with_retry`: final progress
status and error, how many `download_video` calls were made, the backoff
sleeps performed between consecutive attempts, and the entry recorded in the
`failed_downloads` map for this video (`none` when absent or popped). -/
structure RetryResult where
  status : String
  error : Option String
  attemptsMade : Nat
  sleeps : List ℚ
  failedEntry : Option Nat
deriving DecidableEq

/-- One pass of the `for attempt in range(max_retries + 1)` loop, with `fuel`
the number of remaining iterations.  `isDup` is `_is_duplicate_video`'s
verdict (checked at the top of every iteration); `oracle n` is what the
`download_video` call at attempt `n` does. -/
def runRetryAux (cfg : RetryConfig) (isDup : Bool) (oracle : Nat → AttemptOutcome) :
    Nat → Nat → Option String → RetryResult
  | _, 0, lastErr =>
    -- the `# Should not reach here` fallback after the loop
    { status := "failed", error := some (lastErr.getD "Unknown error"),
      attemptsMade := 0, sleeps := [], failedEntry := none }
  | attempt, fuel + 1, _lastErr =>
    if isDup then
      { status := "completed", error := none, attemptsMade := 0, sleeps := [],
        failedEntry := none }
    else
      match oracle attempt with
      | .completes =>
        -- success: `failed_downloads.pop(video.id, None)`
        { status := "completed", error := none, attemptsMade := 1, sleeps := [],
          failedEntry := none }
      | .failsWith e =>
        if attempt < cfg.maxRetries then
          let r := runRetryAux cfg isDup oracle (attempt + 1) fuel (some e)
          { r with attemptsMade := r.attemptsMade + 1,
                   sleeps := cfg.getDelay attempt :: r.sleeps }
        else
          { status := "failed", error := some e, attemptsMade := 1, sleeps := [],
            failedEntry := some (attempt + 1) }
      | .raisesExc e =>
        if attempt < cfg.maxRetries then
          let r := runRetryAux cfg isDup oracle (attempt + 1) fuel (some e)
          { r with attemptsMade := r.attemptsMade + 1,
                   sleeps := cfg.getDelay attempt :: r.sleeps }
        else
          { status := "failed", error := some e, attemptsMade := 1, sleeps := [],
            failedEntry := some (attempt + 1) }

/-- `DownloadManager.download_video_with_retry`. -/
def downloadVideoWithRetry (cfg : RetryConfig) (isDup : Bool)
    (oracle : Nat → AttemptOutcome) : RetryResult :=
  runRetryAux cfg isDup oracle 0 (cfg.maxRetries + 1) none

/-! ### Progress accessors (`download_manager.py` dataclasses) -/

/-- The `DownloadProgress` dataclass fields the percentage accessor uses. -/
structure DownloadProgressData where
  videoId : String := ""
  filename : String := ""
  totalSize : Nat := 0
  downloadedSize : Nat := 0
  status : String := "pending"
deriving DecidableEq

/-- `DownloadProgress.progress_percent`. -/
def progressPercent (p : DownloadProgressData) : ℚ :=
  if p.totalSize = 0 then 0
  else ((p.downloadedSize : ℚ) / (p.totalSize : ℚ)) * 100

/-- The `CourseDownloadProgress` dataclass counters. -/
structure CourseDownloadProgressData where
  courseId : String := ""
  courseTitle : String := ""
  totalVideos : Nat := 0
  completedVideos : Nat := 0
  failedVideos : Nat := 0
  totalSize : Nat := 0
  downloadedSize : Nat := 0
deriving DecidableEq

/-- `CourseDownloadProgress.success_rate`. -/
def successRate (c : CourseDownloadProgressData) : ℚ :=
  if c.totalVideos = 0 then 0
  else (((c.totalVideos : ℚ) - (c.failedVideos : ℚ)) / (c.totalVideos : ℚ)) * 100

/-! ### Course orchestration (`download_course` / `_download_video_with_semaphore`
/ `download_video`) -/

/-- What the body of `download_video` does for one video. -/
inductive DVOutcome
  | success (bytes : Nat)          -- download completes; `bytes` end up downloaded
  | failure (err : String)         -- an exception that is caught and recorded as failed
  | raisesDisk                     -- the body raises `DiskSpaceError`
  | raisesPerm                     -- the body raises `FilePermissionError`
deriving DecidableEq

/-- The exceptions `download_video` re-raises instead of swallowing. -/
inductive Exc
  | diskSpace
  | filePermission
deriving DecidableEq, Repr

/-- `DownloadManager.download_video`: every exception marks the progress
failed, but `DiskSpaceError` and `FilePermissionError` are re-raised; all
other outcomes return the terminal progress `(status, downloadedBytes)`. -/
def downloadVideo : DVOutcome → Except Exc (String × Nat)
  | .success b => .ok ("completed", b)
  | .failure _ => .ok ("failed", 0)
  | .raisesDisk => .error .diskSpace
  | .raisesPerm => .error .filePermission

/-- `_download_video_with_semaphore` for one video: update the course
counters from the returned progress; an escaping exception skips the counter
update and is collected by `asyncio.gather(..., return_exceptions=True)`
without cancelling the sibling tasks. -/
def stepVideo (st : CourseDownloadProgressData × List Exc) (o : DVOutcome) :
    CourseDownloadProgressData × List Exc :=
  match downloadVideo o with
  | .ok (status, b) =>
    if status == "completed" then
      ({ st.1 with completedVideos := st.1.completedVideos + 1,
                   downloadedSize := st.1.downloadedSize + b }, st.2)
    else if status == "failed" then
      ({ st.1 with failedVideos := st.1.failedVideos + 1 }, st.2)
    else st
  | .error e => (st.1, st.2 ++ [e])

/-- The course-level run of `download_course` over the per-video outcomes:
all tasks are awaited via `gather(..., return_exceptions=True)`, so every
video is processed and each escaping exception is merely collected.  Counter
updates commute, so the concurrent interleaving is modelled by a fold. -/
def runCourse (courseId courseTitle : String) (outcomes : List DVOutcome) :
    CourseDownloadProgressData × List Exc :=
  outcomes.foldl stepVideo
    ({ courseId := courseId, courseTitle := courseTitle,
       totalVideos := outcomes.length }, [])

/-! ### Resumable file download (`DownloadManager._download_file`) -/

/-- Externally visible side effects of `_download_file`, in order. -/
inductive FileEvent
  | diskCheckEv   -- `_check_disk_space`
  | statEv        -- `filepath.stat()` on the partial file
  | httpGetEv     -- `session.get(url, ...)`
  | fileOpenEv    -- `aiofiles.open(filepath, mode)`
  | fileWriteEv   -- one chunk write
deriving DecidableEq, Repr

/-- Errors `_download_file` can raise. -/
inductive DlError
  | downloadErr (msg : String)
  | diskSpaceErr
deriving DecidableEq

/-- `DownloadManager._check_disk_space`: raise iff the requirement exceeds
the free space reported for the destination directory. -/
def checkDiskSpace (availableBytes requiredBytes : Nat) : Except DlError Unit :=
  if requiredBytes > availableBytes then .error .diskSpaceErr else .ok ()

/-- The inputs `_download_file` reads from its environment. -/
structure DownloadFileArgs where
  sessionInit : Bool := true       -- `self.session` is set
  availableBytes : Nat := 0        -- free space at the destination directory
  totalSize : Nat := 0             -- `progress.total_size` on entry
  resumeEnabled : Bool := false
  fileExists : Bool := false
  existingSize : Nat := 0          -- size of the partial file when it exists
  httpStatus : Nat := 200
  contentLength : Option Nat := none
  bodyChunks : List Nat := []      -- sizes of the streamed chunks

/-- `DownloadManager._download_file`: returns the bytes accounted in
`progress.downloaded_size` (or the raised error) together with the ordered
trace of network/file-system effects. -/
def downloadFile (a : DownloadFileArgs) : Except DlError Nat × List FileEvent :=
  if !a.sessionInit then (.error (.downloadErr "Download session not initialized"), [])
  else
    match checkDiskSpace a.availableBytes a.totalSize with
    | .error e => (.error e, [.diskCheckEv])
    | .ok _ =>
      let (resumePos, ev1) :=
        if a.resumeEnabled && a.fileExists then (a.existingSize, [FileEvent.diskCheckEv, FileEvent.statEv])
        else (0, [FileEvent.diskCheckEv])
      if resumePos ≥ a.totalSize && a.totalSize > 0 then (.ok resumePos, ev1)
      else
        let ev2 := ev1 ++ [FileEvent.httpGetEv]
        if !(a.httpStatus == 200 || a.httpStatus == 206) then
          (.error (.downloadErr "HTTP status"), ev2)
        else
          let written := a.bodyChunks.foldl (· + ·) 0
          (.ok (resumePos + written),
           (ev2 ++ [FileEvent.fileOpenEv]) ++ a.bodyChunks.map (fun _ => FileEvent.fileWriteEv))

/-! ### Quality filtering (`VideoExtractor.filter_videos_by_quality`) -/

/-- `video.id.split('-quality-')[0]`. -/
def baseId (v : VideoInfo) : String := String.mk (beforeFirstSeq "-quality-".toList v.id.toList)

/-- Append a video to its group, preserving the dict's key insertion order. -/
def addToGroups : List (String × List VideoInfo) → String → VideoInfo →
    List (String × List VideoInfo)
  | [], k, v => [(k, [v])]
  | (k0, g) :: rest, k, v =>
    if k0 == k then (k0, g ++ [v]) :: rest else (k0, g) :: addToGroups rest k v

/-- The `video_groups` dictionary of `filter_videos_by_quality`. -/
def groupByBaseId (videos : List VideoInfo) : List (String × List VideoInfo) :=
  videos.foldl (fun gs v => addToGroups gs (baseId v) v) []

/-- The `quality_order` fallback list of `_select_best_quality`. -/
def qualityOrderFallback : List String :=
  ["2160p", "1440p", "1080p", "720p", "480p", "360p", "240p", "144p"]

/-- `VideoExtractor._select_best_quality`. -/
def selectBestQuality (videos : List VideoInfo) (preferred : List String) : Option VideoInfo :=
  match videos with
  | [] => none
  | [v] => some v
  | _ =>
    match preferred.findSome? (fun q => videos.find? (fun v => v.quality == q)) with
    | some v => some v
    | none =>
      match qualityOrderFallback.findSome? (fun q => videos.find? (fun v => v.quality == q)) with
      | some v => some v
      | none => videos.head?

/-- `VideoExtractor.filter_videos_by_quality`. -/
def filterVideosByQuality (videos : List VideoInfo) (preferredQualities : List String) :
    List VideoInfo :=
  if preferredQualities.isEmpty then videos
  else (groupByBaseId videos).filterMap (fun g => selectBestQuality g.2 preferredQualities)

/-! ### Spec-side definition for the quality-selection refinement claim -/

/-- Follows the spec's words for `encoded_videos` handling: "select URL by
quality-preference order `1080p,720p,480p,360p,240p`, else first available".
Used only to compare against `selectEncoded`, which is transcribed from the
source. -/
def specQualitySelect (encoded : List (String × String)) : Option (String × String) :=
  match qualityPreference.findSome? (fun q => (lookupKey encoded q).map (fun u => (q, u))) with
  | some p => some p
  | none => encoded.head?

/-! ## Theorems -/

/-! ### Cascade behaviour (claims C1, C2) -/

/-- The cascade loop reports `VideoNotFoundError` exactly when every strategy
in the list yields nothing. -/
theorem runStrategies_error_iff (outcomes : StrategyName → StratOutcome)
    (l : List StrategyName) :
    (runStrategies outcomes l).1 = .error "VideoNotFoundError" ↔
      ∀ s ∈ l, stratYieldsNothing (outcomes s) := by
  induction l with
  | nil => simp [runStrategies]
  | cons s rest ih =>
    cases ho : outcomes s with
    | raises m =>
      simp [runStrategies, ho, ih, stratYieldsNothing]
    | yields vs =>
      by_cases hv : vs.isEmpty
      · have hnil : vs = [] := by simpa using hv
        simp [runStrategies, ho, hv, ih, stratYieldsNothing, hnil]
      · simp [runStrategies, ho, hv, stratYieldsNothing]
        intro hcontra
        exact absurd (by simpa using hv) (by simp [hcontra])

/-- If some strategy in the list yields a nonempty record list, the cascade
returns a nonempty record list. -/
theorem runStrategies_ok_of_yields (outcomes : StrategyName → StratOutcome)
    (l : List StrategyName) (s : StrategyName) (vs : List VideoInfo)
    (hs : s ∈ l) (h : outcomes s = .yields vs) (hne : vs ≠ []) :
    ∃ ws, (runStrategies outcomes l).1 = .ok ws ∧ ws ≠ [] := by
  induction l with
  | nil => cases hs
  | cons a rest ih =>
    rcases List.mem_cons.mp hs with rfl | hmem
    · have hv : vs.isEmpty = false := by simpa using hne
      refine ⟨vs, ?_, hne⟩
      simp [runStrategies, h, hv]
    · cases ho : outcomes a with
      | raises m =>
        obtain ⟨ws, hws, hwne⟩ := ih hmem
        exact ⟨ws, by simp [runStrategies, ho, hws], hwne⟩
      | yields ws0 =>
        by_cases hw : ws0.isEmpty
        · obtain ⟨ws, hws, hwne⟩ := ih hmem
          exact ⟨ws, by simp [runStrategies, ho, hw, hws], hwne⟩
        · refine ⟨ws0, by simp [runStrategies, ho, hw], by simpa using hw⟩

/-- Claim C1: on a block where strategy 1 (`_extract_from_api_data`) yields at
least one record and some later strategy would also yield records,
`extract_videos_from_block` runs the strategies in the fixed order
`strategyOrder`, returns strategy 1's records, and invokes no later strategy
(the invoked-strategy trace is exactly `[apiData]`). -/
theorem cascade_short_circuit (outcomes : StrategyName → StratOutcome)
    (vs : List VideoInfo) (s : StrategyName)
    (h1 : outcomes .apiData = .yields vs) (h2 : vs ≠ [])
    (h3 : s ∈ [StrategyName.htmlParsing, .javascript, .videoElements])
    (h4 : ¬ stratYieldsNothing (outcomes s)) :
    extractVideosFromBlock outcomes = (.ok vs, [.apiData]) := by
  have hv : vs.isEmpty = false := by simpa using h2
  simp [extractVideosFromBlock, strategyOrder, runStrategies, h1, hv]

/-- Witness for `cascade_short_circuit`: a block where strategy 1 and strategy
4 both yield a record. -/
theorem cascade_short_circuit_witness :
    extractVideosFromBlock
        (fun _ => .yields [{ id := "v1", title := "Lecture",
                             url := "https://cdn.example.org/lec.mp4", quality := "720p",
                             size := some 0, duration := some 0, courseSection := "",
                             format := "mp4" }])
      = (.ok [{ id := "v1", title := "Lecture",
                url := "https://cdn.example.org/lec.mp4", quality := "720p",
                size := some 0, duration := some 0, courseSection := "",
                format := "mp4" }], [.apiData]) :=
  cascade_short_circuit _ _ .videoElements rfl (by simp) (by simp)
    (by simp [stratYieldsNothing])

/-- Claim C2: `extract_videos_from_block` raises `VideoNotFoundError` iff all
four strategies yield nothing (a raising strategy counting as yielding
nothing), and whenever some strategy yields at least one record the call
returns a nonempty record list instead. -/
theorem videoNotFound_iff_all_yield_nothing (outcomes : StrategyName → StratOutcome) :
    ((extractVideosFromBlock outcomes).1 = .error "VideoNotFoundError" ↔
        ∀ s ∈ strategyOrder, stratYieldsNothing (outcomes s)) ∧
    (∀ s vs, s ∈ strategyOrder → outcomes s = .yields vs → vs ≠ [] →
        ∃ ws, (extractVideosFromBlock outcomes).1 = .ok ws ∧ ws ≠ []) :=
  ⟨runStrategies_error_iff outcomes strategyOrder,
   fun s vs hs h hne => runStrategies_ok_of_yields outcomes strategyOrder s vs hs h hne⟩

/-- Witness for `videoNotFound_iff_all_yield_nothing`: all strategies raising
makes the call raise `VideoNotFoundError`; a nonempty strategy-3 result makes
it return a nonempty list. -/
theorem videoNotFound_iff_all_yield_nothing_witness :
    (extractVideosFromBlock (fun _ => .raises "network down")).1
        = .error "VideoNotFoundError" ∧
    ∃ ws, (extractVideosFromBlock
        (fun s => if s = .javascript then
            .yields [{ id := "v1", title := "Lecture",
                       url := "https://cdn.example.org/lec.mp4", quality := "720p",
                       size := some 0, duration := some 0, courseSection := "",
                       format := "mp4" }]
          else .raises "boom")).1 = .ok ws ∧ ws ≠ [] :=
  ⟨(videoNotFound_iff_all_yield_nothing _).1.mpr (fun s _ => by trivial),
   (videoNotFound_iff_all_yield_nothing _).2 .javascript
     [{ id := "v1", title := "Lecture",
        url := "https://cdn.example.org/lec.mp4", quality := "720p",
        size := some 0, duration := some 0, courseSection := "",
        format := "mp4" }]
     (by simp [strategyOrder]) (by simp) (by simp)⟩

/-! ### Quality selection (claim C3) -/

/-- Claim C3: on a nonempty `encoded_videos` map whose URLs are nonempty
strings, the selection loop picks the first quality in the fixed preference
order `1080p,720p,480p,360p,240p` that is present and only otherwise falls
back to the first entry — i.e. it agrees with the spec-side
`specQualitySelect`; in particular `{480p: A, 720p: B, 1080p: C}` produces a
record with URL `C` and quality `1080p`. -/
theorem quality_selection_order :
    (∀ encoded : List (String × String), encoded ≠ [] →
        (∀ p ∈ encoded, p.2 ≠ "") →
        ∃ q u, specQualitySelect encoded = some (q, u) ∧ selectEncoded encoded = (q, some u)) ∧
    (∀ urljoin : String → String → String,
        parseEncodedVideos urljoin "https://courses.example.org"
          { encodedVideos := [("480p", "https://cdn.example.org/A.mp4"),
                              ("720p", "https://cdn.example.org/B.mp4"),
                              ("1080p", "https://cdn.example.org/C.mp4")] }
          = some { id := "encoded-video", title := "Video",
                   url := "https://cdn.example.org/C.mp4", quality := "1080p",
                   size := some 0, duration := some 0, courseSection := "",
                   format := "mp4" }) := by
  constructor
  · intro encoded hne hurls
    cases hf : qualityPreference.findSome?
        (fun q => (lookupKey encoded q).map (fun u => (q, u))) with
    | some p =>
      obtain ⟨q, u⟩ := p
      obtain ⟨q0, _hq0, hmap⟩ := List.exists_of_findSome?_eq_some hf
      cases hl : lookupKey encoded q0 with
      | none => rw [hl] at hmap; simp at hmap
      | some u0 =>
        rw [hl] at hmap
        simp only [Option.map_some'] at hmap
        injection hmap with hpair
        have hu : u0 = u := congrArg Prod.snd hpair
        have humem0 : u0 ≠ "" := by
          cases hl2 : encoded.find? (fun x => x.1 == q0) with
          | none => simp [lookupKey, hl2] at hl
          | some pr =>
            have hpr2 : pr.2 = u0 := by simpa [lookupKey, hl2] using hl
            have hmem := List.mem_of_find?_eq_some hl2
            have := hurls pr hmem
            simpa [hpr2] using this
        have humem : u ≠ "" := hu ▸ humem0
        exact ⟨q, u, by simp [specQualitySelect, hf],
          by simp [selectEncoded, hf, urlFalsy, humem]⟩
    | none =>
      obtain ⟨pr, rest, rfl⟩ : ∃ pr rest, encoded = pr :: rest := by
        cases encoded with
        | nil => exact absurd rfl hne
        | cons pr rest => exact ⟨pr, rest, rfl⟩
      refine ⟨pr.1, pr.2, by simp [specQualitySelect, hf], ?_⟩
      simp [selectEncoded, hf, urlFalsy]
  · intro urljoin
    rfl

/-- Witness for `quality_selection_order`: the spec's own example map. -/
theorem quality_selection_order_witness :
    (∃ q u, specQualitySelect
          [("480p", "https://cdn.example.org/A.mp4"),
           ("720p", "https://cdn.example.org/B.mp4"),
           ("1080p", "https://cdn.example.org/C.mp4")] = some (q, u) ∧
        selectEncoded
          [("480p", "https://cdn.example.org/A.mp4"),
           ("720p", "https://cdn.example.org/B.mp4"),
           ("1080p", "https://cdn.example.org/C.mp4")] = (q, some u)) ∧
    parseEncodedVideos (fun _ u => u) "https://courses.example.org"
        { encodedVideos := [("480p", "https://cdn.example.org/A.mp4"),
                            ("720p", "https://cdn.example.org/B.mp4"),
                            ("1080p", "https://cdn.example.org/C.mp4")] }
      = some { id := "encoded-video", title := "Video",
               url := "https://cdn.example.org/C.mp4", quality := "1080p",
               size := some 0, duration := some 0, courseSection := "",
               format := "mp4" } :=
  ⟨quality_selection_order.1 _ (by simp) (by decide),
   quality_selection_order.2 _⟩

/-! ### Disk-space preflight (claim C7) -/

/-- Claim C7: with the session initialized and a known required size larger
than the free space, `_download_file` raises `DiskSpaceError` and the effect
trace contains the disk check only — no HTTP request, file open, or write. -/
theorem disk_preflight_before_network (a : DownloadFileArgs)
    (hs : a.sessionInit = true) (h : a.totalSize > a.availableBytes) :
    downloadFile a = (.error .diskSpaceErr, [.diskCheckEv]) ∧
      ∀ e ∈ (downloadFile a).2,
        e ≠ FileEvent.httpGetEv ∧ e ≠ FileEvent.fileOpenEv ∧ e ≠ FileEvent.fileWriteEv := by
  have hc : checkDiskSpace a.availableBytes a.totalSize = .error .diskSpaceErr := by
    simp [checkDiskSpace, h]
  have hmain : downloadFile a = (.error .diskSpaceErr, [.diskCheckEv]) := by
    simp [downloadFile, hs, hc]
  refine ⟨hmain, ?_⟩
  intro e he
  rw [hmain] at he
  simp at he
  subst he
  refine ⟨by simp, by simp, by simp⟩

/-- Witness for `disk_preflight_before_network`: the spec's 2 GB required /
500 MB available scenario. -/
theorem disk_preflight_before_network_witness :
    downloadFile { sessionInit := true, availableBytes := 500 * 1024 ^ 2,
                   totalSize := 2 * 1024 ^ 3 }
      = (.error .diskSpaceErr, [.diskCheckEv]) :=
  (disk_preflight_before_network _ rfl (by norm_num)).1

/-! ### Total percentage accessors (claim C9) -/

/-- Claim C9: `progress_percent` and `success_rate` are total — they return 0
when the denominator is 0 and the expected ratio otherwise. -/
theorem percent_accessors_total (p : DownloadProgressData) (c : CourseDownloadProgressData) :
    (p.totalSize = 0 → progressPercent p = 0) ∧
    (p.totalSize ≠ 0 →
        progressPercent p = ((p.downloadedSize : ℚ) / (p.totalSize : ℚ)) * 100) ∧
    (c.totalVideos = 0 → successRate c = 0) ∧
    (c.totalVideos ≠ 0 →
        successRate c = (((c.totalVideos : ℚ) - (c.failedVideos : ℚ)) / (c.totalVideos : ℚ)) * 100) := by
  refine ⟨?_, ?_, ?_, ?_⟩ <;> intro h <;> simp [progressPercent, successRate, h]

/-- Witness for `percent_accessors_total` at concrete progress values. -/
theorem percent_accessors_total_witness :
    progressPercent { totalSize := 0, downloadedSize := 7 } = 0 ∧
    progressPercent { totalSize := 200, downloadedSize := 50 } = 25 ∧
    successRate { totalVideos := 0, failedVideos := 3 } = 0 ∧
    successRate { totalVideos := 4, failedVideos := 1 } = 75 := by
  have h := percent_accessors_total
    { totalSize := 200, downloadedSize := 50 } { totalVideos := 4, failedVideos := 1 }
  have h0 := percent_accessors_total
    { totalSize := 0, downloadedSize := 7 } { totalVideos := 0, failedVideos := 3 }
  refine ⟨h0.1 rfl, ?_, h0.2.2.1 rfl, ?_⟩
  · have := h.2.1 (by norm_num)
    rw [this]; norm_num
  · have := h.2.2.2 (by norm_num)
    rw [this]; norm_num

/-! ### Empty preference list (claim C10) -/

/-- Claim C10: with an empty preferred-qualities list,
`filter_videos_by_quality` returns its input list unchanged. -/
theorem filter_empty_preference_identity (videos : List VideoInfo) :
    filterVideosByQuality videos [] = videos := by
  simp [filterVideosByQuality]

/-! ### Retry termination (claim C5) -/

/-- Claim C5: with `maxRetries = 2`, a non-duplicate video whose download
never completes is attempted exactly 3 times, with a backoff sleep of
`min(baseDelay * backoffFactor ^ attempt, maxDelay)` between consecutive
attempts, ends with a failed progress, and is recorded in the
failed-downloads map with count 3. -/
theorem retry_termination (b m f : ℚ) (oracle : Nat → AttemptOutcome)
    (h : ∀ n, oracle n ≠ .completes) :
    (downloadVideoWithRetry ⟨2, b, m, f⟩ false oracle).attemptsMade = 3 ∧
    (downloadVideoWithRetry ⟨2, b, m, f⟩ false oracle).status = "failed" ∧
    (downloadVideoWithRetry ⟨2, b, m, f⟩ false oracle).failedEntry = some 3 ∧
    (downloadVideoWithRetry ⟨2, b, m, f⟩ false oracle).sleeps
      = [min (b * f ^ 0) m, min (b * f ^ 1) m] := by
  have e0 : downloadVideoWithRetry ⟨2, b, m, f⟩ false oracle
      = runRetryAux ⟨2, b, m, f⟩ false oracle 0 (2 + 1) none := rfl
  rw [e0]
  cases ho0 : oracle 0 with
  | completes => exact absurd ho0 (h 0)
  | failsWith a0 =>
    cases ho1 : oracle 1 with
    | completes => exact absurd ho1 (h 1)
    | failsWith a1 =>
      cases ho2 : oracle 2 with
      | completes => exact absurd ho2 (h 2)
      | failsWith a2 =>
        simp [runRetryAux, ho0, ho1, ho2, RetryConfig.getDelay]
      | raisesExc a2 =>
        simp [runRetryAux, ho0, ho1, ho2, RetryConfig.getDelay]
    | raisesExc a1 =>
      cases ho2 : oracle 2 with
      | completes => exact absurd ho2 (h 2)
      | failsWith a2 =>
        simp [runRetryAux, ho0, ho1, ho2, RetryConfig.getDelay]
      | raisesExc a2 =>
        simp [runRetryAux, ho0, ho1, ho2, RetryConfig.getDelay]
  | raisesExc a0 =>
    cases ho1 : oracle 1 with
    | completes => exact absurd ho1 (h 1)
    | failsWith a1 =>
      cases ho2 : oracle 2 with
      | completes => exact absurd ho2 (h 2)
      | failsWith a2 =>
        simp [runRetryAux, ho0, ho1, ho2, RetryConfig.getDelay]
      | raisesExc a2 =>
        simp [runRetryAux, ho0, ho1, ho2, RetryConfig.getDelay]
    | raisesExc a1 =>
      cases ho2 : oracle 2 with
      | completes => exact absurd ho2 (h 2)
      | failsWith a2 =>
        simp [runRetryAux, ho0, ho1, ho2, RetryConfig.getDelay]
      | raisesExc a2 =>
        simp [runRetryAux, ho0, ho1, ho2, RetryConfig.getDelay]

/-- Witness for `retry_termination`: default delays, an always-failing
download. -/
theorem retry_termination_witness :
    (downloadVideoWithRetry ⟨2, 1, 60, 2⟩ false (fun _ => .failsWith "HTTP 500")).attemptsMade = 3 ∧
    (downloadVideoWithRetry ⟨2, 1, 60, 2⟩ false (fun _ => .failsWith "HTTP 500")).status = "failed" ∧
    (downloadVideoWithRetry ⟨2, 1, 60, 2⟩ false (fun _ => .failsWith "HTTP 500")).failedEntry = some 3 ∧
    (downloadVideoWithRetry ⟨2, 1, 60, 2⟩ false (fun _ => .failsWith "HTTP 500")).sleeps
      = [min ((1 : ℚ) * 2 ^ 0) 60, min ((1 : ℚ) * 2 ^ 1) 60] :=
  retry_termination 1 60 2 (fun _ => .failsWith "HTTP 500")
    (fun _ h => AttemptOutcome.noConfusion h)

/-! ### Course-level accounting (claim C6) -/

/-- Outcomes counted in `completed_videos`. -/
def isCompletedOutcome : DVOutcome → Bool
  | .success _ => true
  | _ => false

/-- Outcomes counted in `failed_videos` (failures caught inside
`download_video`). -/
def isCountedFailure : DVOutcome → Bool
  | .failure _ => true
  | _ => false

/-- Outcomes whose exception escapes the per-video task
(`DiskSpaceError` / `FilePermissionError` re-raised by `download_video`). -/
def isEscaping : DVOutcome → Bool
  | .raisesDisk => true
  | .raisesPerm => true
  | _ => false

/-- Bytes contributed to `downloaded_size` by one outcome. -/
def outcomeBytes : DVOutcome → Nat
  | .success b => b
  | _ => 0

/-- Folding `stepVideo` over any outcome list adds exactly the per-outcome
counts to the accumulator. -/
theorem foldl_stepVideo_counts (outcomes : List DVOutcome)
    (st : CourseDownloadProgressData × List Exc) :
    (outcomes.foldl stepVideo st).1.completedVideos
        = st.1.completedVideos + (outcomes.filter isCompletedOutcome).length ∧
    (outcomes.foldl stepVideo st).1.failedVideos
        = st.1.failedVideos + (outcomes.filter isCountedFailure).length ∧
    (outcomes.foldl stepVideo st).2.length
        = st.2.length + (outcomes.filter isEscaping).length ∧
    (outcomes.foldl stepVideo st).1.totalVideos = st.1.totalVideos ∧
    (outcomes.foldl stepVideo st).1.downloadedSize
        = st.1.downloadedSize + (outcomes.map outcomeBytes).sum := by
  induction outcomes generalizing st with
  | nil => simp
  | cons o rest ih =>
    obtain ⟨ih1, ih2, ih3, ih4, ih5⟩ := ih (stepVideo st o)
    refine ⟨?_, ?_, ?_, ?_, ?_⟩
    · rw [List.foldl_cons, ih1]
      cases o <;> simp [stepVideo, downloadVideo, isCompletedOutcome, List.filter_cons] <;> omega
    · rw [List.foldl_cons, ih2]
      cases o <;> simp [stepVideo, downloadVideo, isCountedFailure, List.filter_cons] <;> omega
    · rw [List.foldl_cons, ih3]
      cases o <;> simp [stepVideo, downloadVideo, isEscaping, List.filter_cons] <;> omega
    · rw [List.foldl_cons, ih4]
      cases o <;> simp [stepVideo, downloadVideo]
    · rw [List.foldl_cons, ih5]
      cases o <;> simp [stepVideo, downloadVideo, outcomeBytes] <;> omega

/-- The three outcome classes partition the outcome list. -/
theorem filter_partition_outcomes (outcomes : List DVOutcome) :
    (outcomes.filter isCompletedOutcome).length
      + (outcomes.filter isCountedFailure).length
      + (outcomes.filter isEscaping).length = outcomes.length := by
  induction outcomes with
  | nil => simp
  | cons o rest ih =>
    cases o <;>
      simp [List.filter_cons, isCompletedOutcome, isCountedFailure, isEscaping] <;>
      omega

/-- Claim C6 counterexample: in a two-video course where the second video's
download raises `DiskSpaceError`, both videos reach a terminal progress, yet
`completedVideos + failedVideos = 1 ≠ 2 = totalVideos` — the disk-space video
is silently dropped from the completed/failed accounting; and in a course
where the disk-space raise comes first, the later video still downloads, so
`DiskSpaceError` does not stop new downloads from starting. -/
theorem course_accounting_counterexample :
    ((runCourse "c" "t" [DVOutcome.success 10, DVOutcome.raisesDisk]).1.completedVideos
        + (runCourse "c" "t" [DVOutcome.success 10, DVOutcome.raisesDisk]).1.failedVideos = 1) ∧
    (runCourse "c" "t" [DVOutcome.success 10, DVOutcome.raisesDisk]).1.totalVideos = 2 ∧
    (runCourse "c" "t" [DVOutcome.raisesDisk, DVOutcome.success 10]).1.completedVideos = 1 := by
  decide

/-- Claim C6 amended: per-video failures never abort sibling downloads or the
course — every video in the list is processed, and even `DiskSpaceError` (and
`FilePermissionError`, which the code treats identically) merely escapes the
individual task and is collected by the course-level gather without stopping
other downloads.  Every video whose download terminates without raising one
of those two errors is counted in exactly one of `completedVideos` /
`failedVideos`; a video whose download raises `DiskSpaceError` or
`FilePermissionError` is counted in neither bucket, so
`completedVideos + failedVideos + #escaped = totalVideos`. -/
theorem course_accounting_amended (cid ct : String) (outcomes : List DVOutcome) :
    (runCourse cid ct outcomes).1.totalVideos = outcomes.length ∧
    (runCourse cid ct outcomes).1.completedVideos
        = (outcomes.filter isCompletedOutcome).length ∧
    (runCourse cid ct outcomes).1.failedVideos
        = (outcomes.filter isCountedFailure).length ∧
    (runCourse cid ct outcomes).2.length = (outcomes.filter isEscaping).length ∧
    (runCourse cid ct outcomes).1.completedVideos
        + (runCourse cid ct outcomes).1.failedVideos
        + (runCourse cid ct outcomes).2.length = outcomes.length := by
  obtain ⟨h1, h2, h3, h4, h5⟩ := foldl_stepVideo_counts outcomes
    ({ courseId := cid, courseTitle := ct, totalVideos := outcomes.length }, [])
  simp only [runCourse]
  refine ⟨by simpa using h4, by simpa using h1, by simpa using h2, by simpa using h3, ?_⟩
  have hp := filter_partition_outcomes outcomes
  simp at h1 h2 h3
  omega

/-! ### Deduplication by URL (claim C4) -/

/-- Every video the dedup loop keeps has a URL outside the seen set. -/
theorem dedupAux_mem_not_seen (xs : List VideoInfo) (seen : List String)
    (v : VideoInfo) (hv : v ∈ dedupAux xs seen) : v.url ∉ seen := by
  induction xs generalizing seen with
  | nil => simp [dedupAux] at hv
  | cons x rest ih =>
    by_cases hc : seen.contains x.url
    · rw [dedupAux, if_pos hc] at hv
      exact ih seen hv
    · rw [dedupAux, if_neg hc] at hv
      rcases List.mem_cons.mp hv with rfl | hmem
      · simpa [List.elem_iff] using hc
      · have := ih (x.url :: seen) hmem
        exact fun hin => this (List.mem_cons_of_mem _ hin)

/-- The dedup loop's output has pairwise-distinct URLs. -/
theorem dedupAux_nodup (xs : List VideoInfo) (seen : List String) :
    ((dedupAux xs seen).map VideoInfo.url).Nodup := by
  induction xs generalizing seen with
  | nil => simp [dedupAux]
  | cons x rest ih =>
    by_cases hc : seen.contains x.url
    · rw [dedupAux, if_pos hc]
      exact ih seen
    · rw [dedupAux, if_neg hc]
      refine List.nodup_cons.mpr ⟨?_, ih (x.url :: seen)⟩
      intro hmem
      obtain ⟨w, hw, hwe⟩ := List.mem_map.mp hmem
      have := dedupAux_mem_not_seen rest (x.url :: seen) w hw
      exact this (by simp [hwe])

/-- The dedup loop's output is a sublist of its input (order preserved). -/
theorem dedupAux_sublist (xs : List VideoInfo) (seen : List String) :
    List.Sublist (dedupAux xs seen) xs := by
  induction xs generalizing seen with
  | nil => simp [dedupAux]
  | cons x rest ih =>
    by_cases hc : seen.contains x.url
    · rw [dedupAux, if_pos hc]
      exact (ih seen).cons x
    · rw [dedupAux, if_neg hc]
      exact (ih (x.url :: seen)).cons₂ x

/-- For any URL not yet seen, the first kept record with that URL is the first
input record with that URL. -/
theorem dedupAux_find? (xs : List VideoInfo) (seen : List String) (u : String)
    (hu : u ∉ seen) :
    (dedupAux xs seen).find? (fun v => v.url == u) = xs.find? (fun v => v.url == u) := by
  induction xs generalizing seen with
  | nil => simp [dedupAux]
  | cons x rest ih =>
    by_cases hx : x.url = u
    · subst hx
      have hc : ¬ seen.contains x.url := by simpa [List.elem_iff] using hu
      rw [dedupAux, if_neg hc]
      simp [List.find?_cons]
    · have hbe : (x.url == u) = false := by simp [hx]
      by_cases hc : seen.contains x.url
      · rw [dedupAux, if_pos hc]
        rw [ih seen hu]
        simp [List.find?_cons, hbe]
      · rw [dedupAux, if_neg hc]
        simp only [List.find?_cons, hbe]
        exact ih (x.url :: seen) (by simp [hu, Ne.symm hx])

/-- A list with pairwise-distinct URLs, none of them seen, passes through the
dedup loop unchanged. -/
theorem dedupAux_eq_self (xs : List VideoInfo) (seen : List String)
    (hseen : ∀ v ∈ xs, v.url ∉ seen) (hnd : (xs.map VideoInfo.url).Nodup) :
    dedupAux xs seen = xs := by
  induction xs generalizing seen with
  | nil => simp [dedupAux]
  | cons x rest ih =>
    have hc : ¬ seen.contains x.url := by
      simpa [List.elem_iff] using hseen x (List.mem_cons_self x rest)
    rw [dedupAux, if_neg hc]
    congr 1
    refine ih (x.url :: seen) ?_ (List.nodup_cons.mp hnd).2
    intro v hv
    simp only [List.mem_cons, not_or]
    refine ⟨?_, hseen v (List.mem_cons_of_mem _ hv)⟩
    intro he
    exact (List.nodup_cons.mp hnd).1 (List.mem_map.mpr ⟨v, hv, he⟩)

/-- Claim C4: `_extract_all_videos` returns pairwise-distinct URLs, keeps the
first occurrence of each URL with relative order preserved, and the
deduplication is idempotent — re-deduplicating the output changes nothing, so
repeated application cannot grow the list or change its set of URLs. -/
theorem extract_all_videos_dedup (blocks : List Block) :
    ((extractAllVideos blocks).map VideoInfo.url).Nodup ∧
    List.Sublist (extractAllVideos blocks) (blocks.map blockVideos).flatten ∧
    (∀ u : String,
        (extractAllVideos blocks).find? (fun v => v.url == u)
          = ((blocks.map blockVideos).flatten).find? (fun v => v.url == u)) ∧
    dedupByUrl (extractAllVideos blocks) = extractAllVideos blocks := by
  refine ⟨dedupAux_nodup _ [], dedupAux_sublist _ [],
    fun u => dedupAux_find? _ [] u (by simp), ?_⟩
  exact dedupAux_eq_self _ [] (fun v _ => by simp) (dedupAux_nodup _ [])

/-! ### Absolute source URLs (claim C8) -/

/-- `VideoInfo.validate` is the backstop: any record that survives
construction has a scheme-qualified absolute URL. -/
theorem mkVideoInfo_absolute (id title url quality : String) (size duration : Option Int)
    (sectionName fmt : String) (v : VideoInfo)
    (h : mkVideoInfo id title url quality size duration sectionName fmt = some v) :
    isAbsoluteUrl v.url := by
  unfold mkVideoInfo at h
  dsimp only at h
  split at h
  next hval =>
    injection h with hv
    subst hv
    refine ⟨fun hc => ?_, fun hc => ?_⟩ <;> simp [validateVideoInfo, hc] at hval
  next => cases h

/-- Records built by `_create_video_from_url` have absolute URLs. -/
theorem createVideoFromUrl_absolute (urljoin : String → String → String)
    (baseUrl url0 title0 : String) (v : VideoInfo)
    (h : createVideoFromUrl urljoin baseUrl url0 title0 = some v) :
    isAbsoluteUrl v.url := by
  unfold createVideoFromUrl at h
  dsimp only at h
  split at h
  · cases h
  · exact mkVideoInfo_absolute _ _ _ _ _ _ _ _ _ h

/-- Records built by `_parse_encoded_videos` have absolute URLs. -/
theorem parseEncodedVideos_absolute (urljoin : String → String → String)
    (baseUrl : String) (d : EncodedVideosData) (v : VideoInfo)
    (h : parseEncodedVideos urljoin baseUrl d = some v) :
    isAbsoluteUrl v.url := by
  unfold parseEncodedVideos at h
  dsimp only at h
  split at h
  · cases h
  · split at h
    · cases h
    · split at h
      · cases h
      · exact mkVideoInfo_absolute _ _ _ _ _ _ _ _ _ h

/-- Records built by `_parse_video_json` have absolute URLs. -/
theorem parseVideoJson_absolute (urljoin : String → String → String)
    (baseUrl : String) (d : VideoJsonData) (v : VideoInfo)
    (h : parseVideoJson urljoin baseUrl d = some v) :
    isAbsoluteUrl v.url := by
  unfold parseVideoJson at h
  dsimp only at h
  split at h
  · cases h
  · split at h
    · cases h
    · exact mkVideoInfo_absolute _ _ _ _ _ _ _ _ _ h

/-- Records built by `_parse_video_element` have absolute URLs. -/
theorem parseVideoElement_absolute (urljoin : String → String → String)
    (baseUrl : String) (e : VideoElement) (index : Nat) (v : VideoInfo)
    (h : parseVideoElement urljoin baseUrl e index = some v) :
    isAbsoluteUrl v.url := by
  unfold parseVideoElement at h
  dsimp only at h
  split at h
  · cases h
  · exact mkVideoInfo_absolute _ _ _ _ _ _ _ _ _ h

/-- Records built by `_parse_player_element` have absolute URLs. -/
theorem parsePlayerElement_absolute (urljoin : String → String → String)
    (baseUrl : String) (e : PlayerElement) (index : Nat) (v : VideoInfo)
    (h : parsePlayerElement urljoin baseUrl e index = some v) :
    isAbsoluteUrl v.url := by
  unfold parsePlayerElement at h
  dsimp only at h
  split at h
  · split at h
    · exact parseVideoElement_absolute _ _ _ _ _ h
    · cases h
  · exact mkVideoInfo_absolute _ _ _ _ _ _ _ _ _ h

/-- Records built by `_parse_youtube_embed` have absolute URLs. -/
theorem parseYoutubeEmbed_absolute (ifr : IframeElement) (v : VideoInfo)
    (h : parseYoutubeEmbed ifr = some v) : isAbsoluteUrl v.url := by
  unfold parseYoutubeEmbed at h
  dsimp only at h
  split at h
  · cases h
  · split at h
    · cases h
    · split at h
      · cases h
      · exact mkVideoInfo_absolute _ _ _ _ _ _ _ _ _ h

/-- Records built by `_parse_vimeo_embed` have absolute URLs. -/
theorem parseVimeoEmbed_absolute (ifr : IframeElement) (v : VideoInfo)
    (h : parseVimeoEmbed ifr = some v) : isAbsoluteUrl v.url := by
  unfold parseVimeoEmbed at h
  dsimp only at h
  split at h
  · cases h
  · split at h
    · cases h
    · split at h
      · cases h
      · exact mkVideoInfo_absolute _ _ _ _ _ _ _ _ _ h

/-- Claim C8: every `VideoInfo` any record constructor returns has an
absolute, scheme-qualified `url` — relative candidates are passed through
`urljoin` against the platform base first, and any candidate whose final URL
is not absolute fails `validate` and is dropped (`none`) instead of returned.
This holds for every behaviour of `urljoin`. -/
theorem extractor_records_absolute_urls :
    (∀ (urljoin : String → String → String) (baseUrl url0 title0 : String) (v : VideoInfo),
        createVideoFromUrl urljoin baseUrl url0 title0 = some v → isAbsoluteUrl v.url) ∧
    (∀ (urljoin : String → String → String) (baseUrl : String) (d : EncodedVideosData)
        (v : VideoInfo),
        parseEncodedVideos urljoin baseUrl d = some v → isAbsoluteUrl v.url) ∧
    (∀ (urljoin : String → String → String) (baseUrl : String) (d : VideoJsonData)
        (v : VideoInfo),
        parseVideoJson urljoin baseUrl d = some v → isAbsoluteUrl v.url) ∧
    (∀ (urljoin : String → String → String) (baseUrl : String) (e : VideoElement)
        (index : Nat) (v : VideoInfo),
        parseVideoElement urljoin baseUrl e index = some v → isAbsoluteUrl v.url) ∧
    (∀ (urljoin : String → String → String) (baseUrl : String) (e : PlayerElement)
        (index : Nat) (v : VideoInfo),
        parsePlayerElement urljoin baseUrl e index = some v → isAbsoluteUrl v.url) ∧
    (∀ (ifr : IframeElement) (v : VideoInfo),
        parseYoutubeEmbed ifr = some v → isAbsoluteUrl v.url) ∧
    (∀ (ifr : IframeElement) (v : VideoInfo),
        parseVimeoEmbed ifr = some v → isAbsoluteUrl v.url) :=
  ⟨fun uj b u t v h => createVideoFromUrl_absolute uj b u t v h,
   fun uj b d v h => parseEncodedVideos_absolute uj b d v h,
   fun uj b d v h => parseVideoJson_absolute uj b d v h,
   fun uj b e i v h => parseVideoElement_absolute uj b e i v h,
   fun uj b e i v h => parsePlayerElement_absolute uj b e i v h,
   fun ifr v h => parseYoutubeEmbed_absolute ifr v h,
   fun ifr v h => parseVimeoEmbed_absolute ifr v h⟩

/-- Witness for `extractor_records_absolute_urls`: concrete records from a
direct URL (with identity urljoin for the unused join), an encoded-videos
map, and a Vimeo embed, all with absolute URLs. -/
theorem extractor_records_absolute_urls_witness :
    isAbsoluteUrl "https://cdn.example.org/C.mp4" ∧
    isAbsoluteUrl "https://vimeo.com/123" :=
  ⟨(by
      have h := extractor_records_absolute_urls.2.1 (fun _ u => u)
        "https://courses.example.org"
        { encodedVideos := [("480p", "https://cdn.example.org/A.mp4"),
                            ("720p", "https://cdn.example.org/B.mp4"),
                            ("1080p", "https://cdn.example.org/C.mp4")] }
        { id := "encoded-video", title := "Video",
          url := "https://cdn.example.org/C.mp4", quality := "1080p",
          size := some 0, duration := some 0, courseSection := "", format := "mp4" }
        (by rfl)
      exact h),
   (by
      have h := extractor_records_absolute_urls.2.2.2.2.2.2
        { src := "https://player.vimeo.com/video/123", title := some "T" }
        { id := "vimeo-123", title := "T", url := "https://vimeo.com/123",
          quality := "vimeo", size := some 0, duration := some 0,
          courseSection := "", format := "vimeo" }
        (by rfl)
      exact h)⟩

end Edx
